import Mathlib

/-!
Verification of the zaino indexer core against its specification.

The development shallowly embeds the Rust sources:
  - src/zingo-rpc/src/blockcache/utils.rs   (byte readers, ParseError, script ints)
  - src/zingo-rpc/src/blockcache/block.rs   (header/block parsing, block hash, height)
  - src/zingo-rpc/src/jsonrpc/connector.rs  (send_request retry loop, id counter, probe)
  - src/zingo-rpc/src/server/ingestor.rs    (TCP ingestor accept-loop branch)

Bytes are modelled as `Nat` values (the Rust `u8` invariant `b < 256` is carried as a
hypothesis where a theorem needs it), byte strings as `List Nat`, machine integers as
`Nat`/`Int` with explicit `% 2 ^ w` wrapping.  Rust `Cursor` reads are modelled by
consuming from the front of the list and returning the remaining suffix, which is
exactly the `&data[cursor.position()..]` slice the Rust code returns.  A Rust `panic`
(out-of-bounds indexing) is modelled by a dedicated `RResult.panic` outcome.
-/

/-- Parser error type, from utils.rs `ParseError`.  `Io` wraps an underlying
read failure (we keep its display text), `InvalidData` a semantic violation. -/
inductive ParseError where
  | Io (msg : String)
  | InvalidData (msg : String)
deriving DecidableEq, Repr

deriving instance DecidableEq for Except

/-- Little-endian value of a byte string: `b0 + 256*b1 + ...`.  This is the value
byteorder's `read_uNN::<LittleEndian>` reconstructs from the bytes it reads. -/
def leNat (bs : List Nat) : Nat :=
  bs.foldr (fun b acc => acc * 256 + b) 0

/-- Little-endian byte string of length `k` for `n` (`n.to_le_bytes()` truncated
to `k` bytes, i.e. the bytes of `n % 2^(8k)`). -/
def natToLE : Nat → Nat → List Nat
  | 0, _ => []
  | k + 1, n => n % 256 :: natToLE k (n / 256)

theorem natToLE_length (k n : Nat) : (natToLE k n).length = k := by
  induction k generalizing n with
  | zero => rfl
  | succ k ih => simp [natToLE, ih]

theorem leNat_natToLE (k n : Nat) (h : n < 2 ^ (8 * k)) : leNat (natToLE k n) = n := by
  induction k generalizing n with
  | zero =>
    simp only [Nat.mul_zero, pow_zero, Nat.lt_one_iff] at h
    simp [natToLE, leNat, h]
  | succ k ih =>
    have hdiv : n / 256 < 2 ^ (8 * k) := by
      have h2 : (2 : Nat) ^ (8 * (k + 1)) = 2 ^ (8 * k) * 256 := by ring
      omega
    simp only [natToLE, leNat, List.foldr_cons]
    have := ih (n / 256) hdiv
    simp only [leNat] at this
    rw [this]
    omega

/-- Reads the next `n` bytes (utils.rs `read_bytes`): returns the bytes read and
the remaining input, or `InvalidData(error_msg)` if the input is too short. -/
def read_bytes (data : List Nat) (n : Nat) (msg : String) :
    Except ParseError (List Nat × List Nat) :=
  if data.length < n then .error (.InvalidData msg)
  else .ok (data.take n, data.drop n)

theorem read_bytes_append (xs rest : List Nat) (n : Nat) (msg : String)
    (h : xs.length = n) : read_bytes (xs ++ rest) n msg = .ok (xs, rest) := by
  simp [read_bytes, List.take_left' h, List.drop_left' h, h]

/-- Reads a little-endian `u32` (utils.rs `read_u32`). -/
def read_u32 (data : List Nat) (msg : String) : Except ParseError (Nat × List Nat) :=
  match read_bytes data 4 msg with
  | .error e => .error e
  | .ok (bs, rest) => .ok (leNat bs, rest)

/-- Value of 4 little-endian bytes interpreted as a two's-complement `i32`. -/
def decodeI32 (n : Nat) : Int :=
  if n < 2147483648 then (n : Int) else (n : Int) - 4294967296

/-- Reads a little-endian `i32` (utils.rs `read_i32`). -/
def read_i32 (data : List Nat) (msg : String) : Except ParseError (Int × List Nat) :=
  match read_bytes data 4 msg with
  | .error e => .error e
  | .ok (bs, rest) => .ok (decodeI32 (leNat bs), rest)

/-- Little-endian bytes of an `i32` value (`i32::to_le_bytes`, two's complement). -/
def i32ToLE (v : Int) : List Nat :=
  natToLE 4 (v % 4294967296).toNat

theorem i32ToLE_length (v : Int) : (i32ToLE v).length = 4 := natToLE_length ..

theorem read_i32_append (v : Int) (rest : List Nat) (msg : String)
    (h1 : -2147483648 ≤ v) (h2 : v < 2147483648) :
    read_i32 (i32ToLE v ++ rest) msg = .ok (v, rest) := by
  rw [read_i32, read_bytes_append _ _ _ _ (i32ToLE_length v)]
  have hlt : (v % 4294967296).toNat < 2 ^ (8 * 4) := by omega
  dsimp only
  rw [i32ToLE, leNat_natToLE _ _ hlt]
  have key : decodeI32 (v % 4294967296).toNat = v := by
    unfold decodeI32
    split <;> omega
  rw [key]

theorem read_u32_append (t : Nat) (rest : List Nat) (msg : String) (h : t < 4294967296) :
    read_u32 (natToLE 4 t ++ rest) msg = .ok (t, rest) := by
  rw [read_u32, read_bytes_append _ _ _ _ (natToLE_length 4 t)]
  dsimp only
  rw [leNat_natToLE _ _ (by omega)]

/-- Bitcoin-style compact size from the zcash_encoding crate used by block.rs:
`CompactSize::read` reads a 1-byte flag, then 0, 2, 4 or 8 little-endian bytes,
rejecting non-canonical encodings with an IO error. -/
def CompactSizeRead (data : List Nat) : Except ParseError (Nat × List Nat) :=
  match data with
  | [] => .error (.Io "unexpected end of file")
  | flag :: rest =>
    if flag ≤ 252 then .ok (flag, rest)
    else if flag = 253 then
      match read_bytes rest 2 "unexpected end of file" with
      | .error _ => .error (.Io "unexpected end of file")
      | .ok (bs, rest') =>
        if leNat bs < 253 then .error (.Io "non-canonical CompactSize")
        else .ok (leNat bs, rest')
    else if flag = 254 then
      match read_bytes rest 4 "unexpected end of file" with
      | .error _ => .error (.Io "unexpected end of file")
      | .ok (bs, rest') =>
        if leNat bs < 0x10000 then .error (.Io "non-canonical CompactSize")
        else .ok (leNat bs, rest')
    else
      match read_bytes rest 8 "unexpected end of file" with
      | .error _ => .error (.Io "unexpected end of file")
      | .ok (bs, rest') =>
        if leNat bs < 0x100000000 then .error (.Io "non-canonical CompactSize")
        else .ok (leNat bs, rest')

/-- `CompactSize::write` from the zcash_encoding crate (writing to a `Vec` cannot
fail, so the result is a plain byte string). -/
def CompactSizeWrite (n : Nat) : List Nat :=
  if n < 253 then [n]
  else if n ≤ 0xFFFF then 253 :: natToLE 2 n
  else if n ≤ 0xFFFFFFFF then 254 :: natToLE 4 n
  else 255 :: natToLE 8 n

theorem CompactSizeRead_write (n : Nat) (rest : List Nat) (h : n < 2 ^ 64) :
    CompactSizeRead (CompactSizeWrite n ++ rest) = .ok (n, rest) := by
  rw [CompactSizeWrite]
  by_cases h1 : n < 253
  · simp only [if_pos h1, List.cons_append, List.nil_append, CompactSizeRead]
    rw [if_pos (by omega : n ≤ 252)]
  · by_cases h2 : n ≤ 0xFFFF
    · simp only [if_neg h1, if_pos h2, List.cons_append, CompactSizeRead]
      rw [read_bytes_append _ _ _ _ (natToLE_length 2 n)]
      simp [leNat_natToLE _ _ (show n < 2 ^ (8 * 2) by omega), h1]
    · by_cases h3 : n ≤ 0xFFFFFFFF
      · simp only [if_neg h1, if_neg h2, if_pos h3, List.cons_append, CompactSizeRead]
        rw [read_bytes_append _ _ _ _ (natToLE_length 4 n)]
        simp [leNat_natToLE _ _ (show n < 2 ^ (8 * 4) by omega)]
        omega
      · simp only [if_neg h1, if_neg h2, if_neg h3, List.cons_append, CompactSizeRead]
        rw [read_bytes_append _ _ _ _ (natToLE_length 8 n)]
        simp [leNat_natToLE _ _ (show n < 2 ^ (8 * 8) by omega)]
        omega

/-- SHA-256 round constants (FIPS 180-4), as 32-bit words. -/
def sha256K : List Nat :=
  [1116352408, 1899447441, 3049323471, 3921009573, 961987163,
   1508970993, 2453635748, 2870763221, 3624381080, 310598401,
   607225278, 1426881987, 1925078388, 2162078206, 2614888103,
   3248222580, 3835390401, 4022224774, 264347078, 604807628,
   770255983, 1249150122, 1555081692, 1996064986, 2554220882,
   2821834349, 2952996808, 3210313671, 3336571891, 3584528711,
   113926993, 338241895, 666307205, 773529912, 1294757372,
   1396182291, 1695183700, 1986661051, 2177026350, 2456956037,
   2730485921, 2820302411, 3259730800, 3345764771, 3516065817,
   3600352804, 4094571909, 275423344, 430227734, 506948616,
   659060556, 883997877, 958139571, 1322822218, 1537002063,
   1747873779, 1955562222, 2024104815, 2227730452, 2361852424,
   2428436474, 2756734187, 3204031479, 3329325298]

/-- Right rotation of a 32-bit word. -/
def rotr32 (x n : Nat) : Nat :=
  ((x >>> n) ||| (x <<< (32 - n))) % 4294967296

/-- SHA-256 working state: the eight 32-bit hash words. -/
structure Hash8 where
  a : Nat
  b : Nat
  c : Nat
  d : Nat
  e : Nat
  f : Nat
  g : Nat
  h : Nat
deriving DecidableEq, Repr

/-- Initial SHA-256 hash value (FIPS 180-4 5.3.3). -/
def sha256H0 : Hash8 :=
  ⟨1779033703, 3144134277, 1013904242, 2773480762,
   1359893119, 2600822924, 528734635, 1541459225⟩

/-- Extends the 16-word message schedule to 64 words. -/
def sha256Extend : Nat → Array Nat → Array Nat
  | 0, w => w
  | n + 1, w =>
    let i := w.size
    let w15 := w.getD (i - 15) 0
    let w2 := w.getD (i - 2) 0
    let s0 := (rotr32 w15 7) ^^^ (rotr32 w15 18) ^^^ (w15 >>> 3)
    let s1 := (rotr32 w2 17) ^^^ (rotr32 w2 19) ^^^ (w2 >>> 10)
    let next := (w.getD (i - 16) 0 + s0 + w.getD (i - 7) 0 + s1) % 4294967296
    sha256Extend n (w.push next)

/-- One SHA-256 compression round. -/
def sha256Round (st : Hash8) (kt wt : Nat) : Hash8 :=
  let s1 := (rotr32 st.e 6) ^^^ (rotr32 st.e 11) ^^^ (rotr32 st.e 25)
  let ch := (st.e &&& st.f) ^^^ ((st.e ^^^ 4294967295) &&& st.g)
  let temp1 := (st.h + s1 + ch + kt + wt) % 4294967296
  let s0 := (rotr32 st.a 2) ^^^ (rotr32 st.a 13) ^^^ (rotr32 st.a 22)
  let maj := (st.a &&& st.b) ^^^ (st.a &&& st.c) ^^^ (st.b &&& st.c)
  let temp2 := (s0 + maj) % 4294967296
  ⟨(temp1 + temp2) % 4294967296, st.a, st.b, st.c,
   (st.d + temp1) % 4294967296, st.e, st.f, st.g⟩

/-- Runs the 64 compression rounds over the schedule. -/
def sha256Rounds (st : Hash8) : List Nat → List Nat → Hash8
  | k :: ks, w :: ws => sha256Rounds (sha256Round st k w) ks ws
  | _, _ => st

/-- Big-endian 32-bit word formed from the first four bytes of a list. -/
def beWord32 (bs : List Nat) : Nat :=
  match bs with
  | b0 :: b1 :: b2 :: b3 :: _ => ((b0 * 256 + b1) * 256 + b2) * 256 + b3
  | _ => 0

/-- Compresses one 64-byte block into the running hash. -/
def sha256Compress (h : Hash8) (block : List Nat) : Hash8 :=
  let w0 := (List.range 16).map (fun i => beWord32 (block.drop (4 * i)))
  let w := sha256Extend 48 (Array.mk w0)
  let st := sha256Rounds h sha256K w.toList
  ⟨(h.a + st.a) % 4294967296, (h.b + st.b) % 4294967296,
   (h.c + st.c) % 4294967296, (h.d + st.d) % 4294967296,
   (h.e + st.e) % 4294967296, (h.f + st.f) % 4294967296,
   (h.g + st.g) % 4294967296, (h.h + st.h) % 4294967296⟩

/-- Big-endian 4-byte encoding of a 32-bit word. -/
def be32Bytes (x : Nat) : List Nat :=
  [x / 16777216 % 256, x / 65536 % 256, x / 256 % 256, x % 256]

/-- Big-endian 8-byte encoding of a 64-bit value (the message bit length). -/
def be64Bytes (x : Nat) : List Nat :=
  [x / 72057594037927936 % 256, x / 281474976710656 % 256, x / 1099511627776 % 256,
   x / 4294967296 % 256, x / 16777216 % 256, x / 65536 % 256, x / 256 % 256, x % 256]

/-- SHA-256 message padding: append 0x80, zeros to 56 mod 64, then the 64-bit
big-endian bit length. -/
def sha256Pad (msg : List Nat) : List Nat :=
  msg ++ [0x80] ++ List.replicate ((64 - (msg.length + 9) % 64) % 64) 0
      ++ be64Bytes (8 * msg.length)

/-- Compresses the first `n` 64-byte blocks of a padded message in sequence.
Structural recursion on the block count keeps the function kernel-reducible. -/
def sha256Fold : Nat → Hash8 → List Nat → Hash8
  | 0, h, _ => h
  | n + 1, h, bs => sha256Fold n (sha256Compress h (bs.take 64)) (bs.drop 64)

/-- SHA-256 of a byte string, as the 32-byte big-endian digest (the `sha2` crate's
`Sha256` output used by block.rs). -/
def sha256 (msg : List Nat) : List Nat :=
  let padded := sha256Pad msg
  let final := sha256Fold (padded.length / 64) sha256H0 padded
  be32Bytes final.a ++ be32Bytes final.b ++ be32Bytes final.c ++ be32Bytes final.d ++
  be32Bytes final.e ++ be32Bytes final.f ++ be32Bytes final.g ++ be32Bytes final.h

example : sha256 [] =
    [0xe3, 0xb0, 0xc4, 0x42, 0x98, 0xfc, 0x1c, 0x14, 0x9a, 0xfb, 0xf4, 0xc8,
     0x99, 0x6f, 0xb9, 0x24, 0x27, 0xae, 0x41, 0xe4, 0x64, 0x9b, 0x93, 0x4c,
     0xa4, 0x95, 0x99, 0x1b, 0x78, 0x52, 0xb8, 0x55] := by decide

example : sha256 [0x61, 0x62, 0x63] =
    [0xba, 0x78, 0x16, 0xbf, 0x8f, 0x01, 0xcf, 0xea, 0x41, 0x41, 0x40, 0xde,
     0x5d, 0xae, 0x22, 0x23, 0xb0, 0x03, 0x61, 0xa3, 0x96, 0x17, 0x7a, 0x9c,
     0xb4, 0x10, 0xff, 0x61, 0xf2, 0x00, 0x15, 0xad] := by decide

/-- Block header data, from block.rs `BlockHeaderData`.  Fixed-size fields are
byte strings whose Rust types force the lengths 32/32/32/4/32; `version` is an
`i32` and `time` a `u32`; `solution` is the variable-length Equihash witness. -/
structure BlockHeaderData where
  version : Int
  hash_prev_block : List Nat
  hash_merkle_root : List Nat
  hash_final_sapling_root : List Nat
  time : Nat
  n_bits_bytes : List Nat
  nonce : List Nat
  solution : List Nat
deriving DecidableEq, Repr

/-- Header parser, from block.rs `BlockHeaderData::parse_from_slice`: rejects a
non-`None` txid context, then reads the fields in order, the solution behind a
compact-size length prefix, and returns the unconsumed suffix. -/
def BlockHeaderData.parse_from_slice (data : List Nat) (txid : Option (List Nat)) :
    Except ParseError (List Nat × BlockHeaderData) :=
  match txid with
  | some _ => .error (.InvalidData "txid must be None for BlockHeaderData::parse_from_slice")
  | none =>
    match read_i32 data "Error reading BlockHeaderData::version" with
    | .error e => .error e
    | .ok (version, r1) =>
      match read_bytes r1 32 "Error reading BlockHeaderData::hash_prev_block" with
      | .error e => .error e
      | .ok (hash_prev_block, r2) =>
        match read_bytes r2 32 "Error reading BlockHeaderData::hash_merkle_root" with
        | .error e => .error e
        | .ok (hash_merkle_root, r3) =>
          match read_bytes r3 32 "Error reading BlockHeaderData::hash_final_sapling_root" with
          | .error e => .error e
          | .ok (hash_final_sapling_root, r4) =>
            match read_u32 r4 "Error reading BlockHeaderData::time" with
            | .error e => .error e
            | .ok (time, r5) =>
              match read_bytes r5 4 "Error reading BlockHeaderData::n_bits_bytes" with
              | .error e => .error e
              | .ok (n_bits_bytes, r6) =>
                match read_bytes r6 32 "Error reading BlockHeaderData::nonce" with
                | .error e => .error e
                | .ok (nonce, r7) =>
                  match CompactSizeRead r7 with
                  | .error e => .error e
                  | .ok (compact_length, r8) =>
                    match read_bytes r8 compact_length
                        "Error reading BlockHeaderData::solution" with
                    | .error e => .error e
                    | .ok (solution, r9) =>
                      .ok (r9, ⟨version, hash_prev_block, hash_merkle_root,
                        hash_final_sapling_root, time, n_bits_bytes, nonce, solution⟩)

/-- Header serializer, from block.rs `BlockHeaderData::to_binary`.  The Rust
function returns a `Result` but its only fallible step writes a compact size
into a `Vec`, which cannot fail, so the embedding is total. -/
def BlockHeaderData.to_binary (h : BlockHeaderData) : List Nat :=
  i32ToLE h.version ++ (h.hash_prev_block ++ (h.hash_merkle_root ++
    (h.hash_final_sapling_root ++ (natToLE 4 h.time ++ (h.n_bits_bytes ++
      (h.nonce ++ (CompactSizeWrite h.solution.length ++ h.solution)))))))

/-- Block hash, from block.rs `BlockHeaderData::get_block_hash`: SHA-256 of the
serialized header, then SHA-256 of that digest. -/
def BlockHeaderData.get_block_hash (h : BlockHeaderData) : List Nat :=
  sha256 (sha256 h.to_binary)

/-- Result of running a piece of Rust code that may also panic (out-of-bounds
indexing), in addition to returning `Ok` or `Err`. -/
inductive RResult (α : Type) where
  | ok : α → RResult α
  | err : ParseError → RResult α
  | panic : String → RResult α
deriving DecidableEq, Repr

/-- Sequencing on `RResult`: errors and panics propagate. -/
def RResult.bind {α β : Type} : RResult α → (α → RResult β) → RResult β
  | .ok a, f => f a
  | .err e, _ => .err e
  | .panic m, _ => .panic m

/-- Rust `Vec` indexing `v[i]`: panics when out of bounds. -/
def rustIndex {α : Type} (l : List α) (i : Nat) : RResult α :=
  match l.get? i with
  | some a => .ok a
  | none => .panic "index out of bounds"

/-- Modelled from the spec: `FullTransaction` itself is parsed by
transaction.rs, which is outside the supplied sources; the spec (§3) leaves it
"out of scope at the bit level".  Only the fields block.rs actually accesses —
`raw_transaction.transparent_inputs[i].script_sig` — are represented here. -/
structure TxIn where
  script_sig : List Nat
deriving DecidableEq, Repr

/-- Modelled from the spec: transaction body holding the transparent inputs
accessed by block.rs. -/
structure TransactionData where
  transparent_inputs : List TxIn
deriving DecidableEq, Repr

/-- Modelled from the spec: a parsed transaction as held in `FullBlock::vtx`. -/
structure FullTransaction where
  raw_transaction : TransactionData
deriving DecidableEq, Repr

/-- Script-number opcodes, from utils.rs. -/
def OP_0 : Nat := 0x00

/-- OP_1NEGATE opcode byte. -/
def OP_1_NEGATE : Nat := 0x4f

/-- OP_1 opcode byte. -/
def OP_1 : Nat := 0x51

/-- OP_16 opcode byte. -/
def OP_16 : Nat := 0x60

/-- Script integer reader, from utils.rs `read_zcash_script_i64`: reads one
byte; OP_1NEGATE/OP_0/OP_1..OP_16 are immediate values, otherwise the byte is
a length `n` and the next `n` bytes are folded (from the last byte down) with
`(acc << 8) | byte` on `u64`, the result cast `as i64`.  Returns the value and
the unconsumed suffix (the cursor advance). -/
def read_zcash_script_i64 (script : List Nat) : Except ParseError (Int × List Nat) :=
  match read_bytes script 1 "Error reading first byte in i64 script hash" with
  | .error e => .error e
  | .ok (fb, rest) =>
    let first_byte := fb.headI
    if first_byte = OP_1_NEGATE then .ok (-1, rest)
    else if first_byte = OP_0 then .ok (0, rest)
    else if OP_1 ≤ first_byte ∧ first_byte ≤ OP_16 then
      .ok ((first_byte : Int) - (OP_1 - 1 : Nat), rest)
    else
      match read_bytes rest first_byte "Error reading i64 script hash" with
      | .error e => .error e
      | .ok (num_bytes, rest') =>
        let number := num_bytes.reverse.foldl
          (fun acc byte => ((acc <<< 8) % 18446744073709551616) ||| byte) 0
        let signed : Int := if number < 9223372036854775808 then (number : Int)
          else (number : Int) - 18446744073709551616
        .ok (signed, rest')

/-- Genesis sentinel, from block.rs `GENESIS_TARGET_DIFFICULTY`. -/
def GENESIS_TARGET_DIFFICULTY : Nat := 520617983

/-- The `as i32` cast of an `i64` value: keep the low 32 bits, two's complement. -/
def i64AsI32 (h : Int) : Int :=
  (h + 2147483648) % 4294967296 - 2147483648

/-- Block height extraction, from block.rs `FullBlock::get_block_height`.  The
Rust code indexes `transactions[0]` and `...transparent_inputs[0]` without any
guard, so the model returns `RResult.panic` exactly where Rust would panic. -/
def FullBlock.get_block_height (transactions : List FullTransaction) : RResult Int :=
  RResult.bind (rustIndex transactions 0) fun tx0 =>
  RResult.bind (rustIndex tx0.raw_transaction.transparent_inputs 0) fun inp =>
  match read_zcash_script_i64 inp.script_sig with
  | .error e => .err e
  | .ok (height_num, _) =>
    if height_num < 0 then .ok (-1)
    else if height_num > 4294967295 then .ok (-1)
    else if height_num % 4294967296 = (GENESIS_TARGET_DIFFICULTY : Int) then .ok 0
    else .ok (i64AsI32 height_num)

/-- Complete block header, from block.rs `FullBlockHeader`. -/
structure FullBlockHeader where
  raw_block_header : BlockHeaderData
  cached_hash : List Nat
deriving DecidableEq, Repr

/-- Zingo-Proxy block, from block.rs `FullBlock`. -/
structure FullBlock where
  hdr : FullBlockHeader
  vtx : List FullTransaction
  height : Int
deriving DecidableEq, Repr

/-- Shape of the transaction parser `FullTransaction::parse_from_slice`
(transaction.rs, outside the supplied sources): it receives a byte slice and a
txid context and yields the unconsumed suffix and the parsed transaction. -/
def TxParseFn : Type :=
  List Nat → Option (List Nat) → Except ParseError (List Nat × FullTransaction)

/-- The transaction loop of block.rs `FullBlock::parse_from_slice` (lines
228-242).  `after_count` is `&data[cursor.position() as usize..]`: the cursor is
never advanced inside the Rust loop, so every iteration parses from this same
slice, while `remaining` threads the `remaining_data` variable that the loop
updates, checks for emptiness, and finally returns. -/
def FullBlock.parseTxLoop (txParse : TxParseFn) (after_count : List Nat) :
    List Nat → List Nat → RResult (List Nat × List FullTransaction)
  | [], remaining => .ok (remaining, [])
  | t :: ts, remaining =>
    if remaining.isEmpty then
      .err (.InvalidData "parsing block transactions: not enough data for transaction.")
    else
      match txParse after_count (some [t]) with
      | .error e => .err e
      | .ok (new_remaining, tx) =>
        RResult.bind (FullBlock.parseTxLoop txParse after_count ts new_remaining)
          fun (final_remaining, txs) => .ok (final_remaining, tx :: txs)

/-- Block parser, from block.rs `FullBlock::parse_from_slice`, parameterised by
the external transaction parser.  It parses the header, reads the transaction
count as a compact size, checks it against the txid-context length, runs the
transaction loop, derives the height (which may panic) and caches the block
hash. -/
def FullBlock.parse_from_slice (txParse : TxParseFn) (data : List Nat)
    (txid : Option (List Nat)) : RResult (List Nat × FullBlock) :=
  match txid with
  | none => .err (.InvalidData "txid must be used for FullBlock::parse_from_slice")
  | some txids =>
    match BlockHeaderData.parse_from_slice data none with
    | .error e => .err e
    | .ok (r1, block_header_data) =>
      match CompactSizeRead r1 with
      | .error e => .err e
      | .ok (tx_count, after_count) =>
        if txids.length ≠ tx_count then
          .err (.InvalidData ("number of txids (" ++ toString txids.length ++
            ") does not match tx_count (" ++ toString tx_count ++ ")"))
        else
          RResult.bind (FullBlock.parseTxLoop txParse after_count txids after_count)
            fun (remaining_data, transactions) =>
          RResult.bind (FullBlock.get_block_height transactions) fun block_height =>
          .ok (remaining_data,
            { hdr := { raw_block_header := block_header_data,
                       cached_hash := block_header_data.get_block_hash },
              vtx := transactions,
              height := block_height })

/-- Double SHA-256 as the specification words it: apply SHA-256 twice, the
second invocation consuming the first digest. -/
def doubleSha256 (bs : List Nat) : List Nat :=
  sha256 (sha256 bs)

/-- JSON-RPC request envelope, from connector.rs `RpcRequest<T>`. -/
structure RpcRequest (T : Type) where
  jsonrpc : String
  method : String
  params : T
  id : Int
deriving DecidableEq, Repr

/-- JSON-RPC error object, from connector.rs `RpcError`. -/
structure RpcError where
  code : Int
  message : String
deriving DecidableEq, Repr

/-- JSON-RPC response envelope, from connector.rs `RpcResponse<T>` (the `data`
field of the error object is not inspected by the code and is omitted). -/
structure RpcResponse (R : Type) where
  id : Int
  jsonrpc : Option String
  result : R
  error : Option RpcError
deriving DecidableEq, Repr

/-- Connector error taxonomy, from connector.rs `JsonRpcConnectorError`
(constructors not exercised by `send_request` are omitted from the model's
reachable set but kept for fidelity). -/
inductive JsonRpcConnectorError where
  | CustomError (msg : String)
  | SerdeJsonError (msg : String)
  | HyperError (msg : String)
  | HttpError (msg : String)
  | InvalidUriError (msg : String)
  | TimeoutError
deriving DecidableEq, Repr

/-- Outcome of one HTTP round trip (`client.request(..)` followed by
`hyper::body::to_bytes`): either a transport failure or a response body. -/
inductive HttpOutcome where
  | transportErr (msg : String)
  | body (s : String)
deriving DecidableEq, Repr

/-- Rust `str::contains`: substring containment. -/
def strContains (s pat : String) : Bool :=
  decide (List.IsInfix pat.toList s.toList)

/-- The backpressure sentinel tested by connector.rs. -/
def workQueueSentinel : String := "Work queue depth exceeded"

/-- Result of the `send_request` loop: how many HTTP attempts were made, the
request body sent on each attempt (in order), and the final outcome. -/
structure SendOutcome (R : Type) where
  attempts : Nat
  sent : List String
  result : Except JsonRpcConnectorError R
deriving Repr

/-- The retry loop of connector.rs `send_request` (lines 141-187), parameterised
by the serde deserialisation step and by the HTTP layer's outcome for each
attempt.  `attempts` counts the attempts already made; the loop body increments
it, performs one HTTP round trip with the (fixed) request body, retries after a
500 ms sleep on the backpressure sentinel while `attempts < max_attempts = 5`,
and otherwise returns. -/
def sendRequestLoop {R : Type} (deser : String → Except String (RpcResponse R))
    (outcomes : Nat → HttpOutcome) (requestBody : String) (attempts : Nat) :
    SendOutcome R :=
  match outcomes attempts with
  | .transportErr m => ⟨attempts + 1, [requestBody], .error (.HyperError m)⟩
  | .body s =>
    if strContains s workQueueSentinel then
      if attempts + 1 ≥ 5 then
        ⟨attempts + 1, [requestBody],
          .error (.CustomError "Work queue depth exceeded after multiple attempts")⟩
      else
        let r := sendRequestLoop deser outcomes requestBody (attempts + 1)
        ⟨r.attempts, requestBody :: r.sent, r.result⟩
    else
      match deser s with
      | .error m => ⟨attempts + 1, [requestBody], .error (.SerdeJsonError m)⟩
      | .ok resp =>
        match resp.error with
        | some e => ⟨attempts + 1, [requestBody],
            .error (.CustomError ("RPC Error " ++ toString e.code ++ ": " ++ e.message))⟩
        | none => ⟨attempts + 1, [requestBody], .ok resp.result⟩
termination_by 5 - attempts

/-- connector.rs `send_request`: fetch one id from the counter, build the
envelope once, serialize it once, then run the retry loop from zero attempts.
`serializeReq` stands for `serde_json::to_string` on the envelope. -/
def JsonRpcConnector.send_request {T R : Type}
    (serializeReq : RpcRequest T → String)
    (deser : String → Except String (RpcResponse R))
    (outcomes : Nat → HttpOutcome) (method : String) (params : T) (id : Int) :
    SendOutcome R :=
  sendRequestLoop deser outcomes
    (serializeReq { jsonrpc := "2.0", method := method, params := params, id := id }) 0

/-- State of the connector's `AtomicI32` id counter after `n` `fetch_add(1)`
operations, starting from `AtomicI32::new(0)`; `i32` addition wraps. -/
def idCounterAfter : Nat → Int
  | 0 => 0
  | n + 1 => i64AsI32 (idCounterAfter n + 1)

/-- The id handed to the `n`-th call of `send_request` (0-based): `fetch_add`
returns the pre-increment value. -/
def idOfCall (n : Nat) : Int := idCounterAfter n

theorem idOfCall_closed (n : Nat) : idOfCall n = ((n : Int) + 2147483648) % 4294967296 - 2147483648 := by
  induction n with
  | zero => rfl
  | succ n ih =>
    show i64AsI32 (idOfCall n + 1) = _
    rw [ih, i64AsI32]
    omega

/-- The literal getinfo probe body sent by connector.rs `test_node_connection`. -/
def getinfoBody : String :=
  "\x7b\"jsonrpc\":\"2.0\",\"method\":\"getinfo\",\"params\":[],\"id\":1\x7d"

/-- Observable events of the node probe: a connection attempt against a URI
(carrying the request body and the `tokio::time::timeout` budget in seconds)
and the inter-round sleep. -/
inductive ProbeEvent where
  | attempt (uri : String) (requestBody : String) (timeoutSecs : Nat)
  | sleepSecs (n : Nat)
deriving DecidableEq, Repr

/-- Final outcome of the probe: a returned URI or `std::process::exit(code)`. -/
inductive ProbeOutcome where
  | ret (uri : String)
  | exit (code : Nat)
deriving DecidableEq, Repr

/-- IPv4 URI built by connector.rs `test_node_and_return_uri`. -/
def ipv4Uri (port : Nat) : String := "http://127.0.0.1:" ++ toString port

/-- IPv6 URI built by connector.rs `test_node_and_return_uri`. -/
def ipv6Uri (port : Nat) : String := "http://[::1]:" ++ toString port

/-- The round loop of connector.rs `test_node_and_return_uri` (lines 470-500),
parameterised by oracles giving the success of `test_node_connection` on the
IPv4 and IPv6 URIs in each round.  Each attempt carries the getinfo body and a
3-second timeout; when both attempts of a round fail the code sleeps 3 s and
retries; after 3 failed rounds it calls `std::process::exit(1)`. -/
def probeLoop (port : Nat) (o4 o6 : Nat → Bool) (round : Nat) :
    List ProbeEvent × ProbeOutcome :=
  if h : round ≥ 3 then ([], .exit 1)
  else
    if o4 round then
      ([.attempt (ipv4Uri port) getinfoBody 3], .ret (ipv4Uri port))
    else if o6 round then
      ([.attempt (ipv4Uri port) getinfoBody 3, .attempt (ipv6Uri port) getinfoBody 3],
       .ret (ipv6Uri port))
    else
      let r := probeLoop port o4 o6 (round + 1)
      (.attempt (ipv4Uri port) getinfoBody 3 :: .attempt (ipv6Uri port) getinfoBody 3 ::
        .sleepSecs 3 :: r.1, r.2)
termination_by 3 - round

/-- connector.rs `test_node_and_return_uri`: run the probe loop from round 0. -/
def test_node_and_return_uri (port : Nat) (o4 o6 : Nat → Bool) :
    List ProbeEvent × ProbeOutcome :=
  probeLoop port o4 o6 0

/-- Wallet request, from request.rs `ZingoProxyRequest` (outside the supplied
sources); the TCP ingestor wraps an accepted `TcpStream`, modelled as an opaque
handle. -/
inductive ZingoProxyRequest where
  | grpc (stream : Nat)
deriving DecidableEq, Repr

/-- Modelled from the spec: the bounded request queue of §4.3 / §3 "Queue
state" (server/queue.rs is outside the supplied sources).  A bounded FIFO
buffer with a capacity fixed at construction and a closed flag. -/
structure Queue (α : Type) where
  capacity : Nat
  buffer : List α
  closed : Bool
deriving DecidableEq, Repr

/-- Queue send error, from server/error.rs `QueueError` as used by ingestor.rs:
`QueueFull` hands the rejected request back to the caller. -/
inductive QueueError (α : Type) where
  | queueFull (a : α)
  | queueClosed
deriving DecidableEq, Repr

/-- Modelled from the spec: non-blocking `try_send` (§4.3): `Ok` appends to the
buffer; when the queue is at capacity it returns `QueueFull` with the request
and leaves the queue unchanged; a closed queue returns `Closed`. -/
def Queue.try_send {α : Type} (q : Queue α) (a : α) :
    Queue α × Except (QueueError α) Unit :=
  if q.closed then (q, .error .queueClosed)
  else if q.buffer.length ≥ q.capacity then (q, .error (.queueFull a))
  else ({ q with buffer := q.buffer ++ [a] }, .ok ())

/-- Wallet-visible and log-visible effects of one pass through the accept
branch of `TcpIngestor::serve`.  The constructors `sendResourceExhausted` and
`closeStreamWithResponse` exist so that their absence from the code's output is
expressible; the Rust branch only ever logs via `eprintln!`. -/
inductive IngestorEffect where
  | logError (msg : String)
  | sendResourceExhausted (stream : Nat)
  | closeStreamWithResponse (stream : Nat)
deriving DecidableEq, Repr

/-- The `incoming = self.ingestor.accept()` match arm of ingestor.rs
`TcpIngestor::serve` (lines 81-99): on an accepted stream, try to enqueue a
`ZingoProxyRequest::Grpc`; on `QueueFull` print "Queue Full." (the response to
the wallet is only a TODO comment in the source); on a closed queue or a failed
accept, print an error.  Every branch falls through, so the returned Bool
(`exitsLoop`) is always false: the accept loop continues. -/
def TcpIngestor.handleIncoming (q : Queue ZingoProxyRequest)
    (incoming : Except String Nat) :
    Queue ZingoProxyRequest × List IngestorEffect × Bool :=
  match incoming with
  | .ok stream =>
    match Queue.try_send q (.grpc stream) with
    | (q', .ok _) => (q', [], false)
    | (q', .error (.queueFull _request)) => (q', [.logError "Queue Full."], false)
    | (q', .error .queueClosed) =>
      (q', [.logError "Queue Closed. Failed to send request to queue."], false)
  | .error e =>
    (q, [.logError ("Failed to accept connection with client: " ++ e)], false)

/-- The specification's script-integer encoding relation (§4.1 step 4, quoted
by claim C3): a script whose leading bytes encode the number `h`, with an
arbitrary unread tail.  `OP_0` encodes 0, `OP_1NEGATE` encodes -1,
`OP_1..OP_16` encode 1..16, and otherwise a first byte `n` (any byte value not
claimed by those opcodes) is followed by an `n`-byte unsigned little-endian
integer. -/
inductive SpecScriptInt : List Nat → Int → Prop where
  | op0 (rest : List Nat) : SpecScriptInt (0x00 :: rest) 0
  | opNegate (rest : List Nat) : SpecScriptInt (0x4f :: rest) (-1)
  | opSmall (b : Nat) (rest : List Nat) (h1 : 0x51 ≤ b) (h2 : b ≤ 0x60) :
      SpecScriptInt (b :: rest) ((b : Int) - 0x50)
  | lengthPrefixed (n : Nat) (bs rest : List Nat)
      (hn : n < 256) (hn0 : n ≠ 0x00) (hn1 : n ≠ 0x4f) (hn2 : ¬ (0x51 ≤ n ∧ n ≤ 0x60))
      (hlen : bs.length = n) (hbytes : ∀ b ∈ bs, b < 256) :
      SpecScriptInt (n :: (bs ++ rest)) (leNat bs)

/-- A concrete all-zero header used by the closed witnesses below; its
serialization is the 141-byte string of §3 with an empty Equihash solution. -/
def hdr0 : BlockHeaderData :=
  ⟨4, List.replicate 32 0, List.replicate 32 0, List.replicate 32 0, 0,
   List.replicate 4 0, List.replicate 32 0, []⟩

/-- A concrete stand-in for the external transaction parser, used by the closed
witnesses below: it consumes exactly one byte and records it as the script of
the transaction's single transparent input. -/
def txParse1 : TxParseFn := fun data _ =>
  match data with
  | [] => .error (.InvalidData "tx: insufficient bytes")
  | b :: rest => .ok (rest, ⟨⟨[⟨[b]⟩]⟩⟩)

/-- Projection used by closed statements about `FullBlock::parse_from_slice`:
the returned remainder and transaction list, when parsing succeeded. -/
def parsedVtx (r : RResult (List Nat × FullBlock)) :
    Option (List Nat × List FullTransaction) :=
  match r with
  | .ok (rem, blk) => some (rem, blk.vtx)
  | _ => none

theorem read_bytes_self (xs : List Nat) (msg : String) :
    read_bytes xs xs.length msg = .ok (xs, []) := by
  simp [read_bytes]

/-- C2: for every `BlockHeaderData` whose fixed-width fields have the §3
lengths (and whose scalar fields satisfy their Rust-type ranges), parsing the
serialization round-trips: `parse_from_slice(to_binary(H), None)` succeeds,
leaves an empty remainder and returns `H` field for field. -/
theorem c2_header_roundtrip (H : BlockHeaderData)
    (hv1 : -2147483648 ≤ H.version) (hv2 : H.version < 2147483648)
    (hp : H.hash_prev_block.length = 32) (hm : H.hash_merkle_root.length = 32)
    (hs : H.hash_final_sapling_root.length = 32)
    (ht : H.time < 4294967296) (hb : H.n_bits_bytes.length = 4)
    (hn : H.nonce.length = 32) (hsol : H.solution.length < 2 ^ 64) :
    BlockHeaderData.parse_from_slice H.to_binary none = .ok ([], H) := by
  rw [BlockHeaderData.to_binary]
  unfold BlockHeaderData.parse_from_slice
  rw [read_i32_append _ _ _ hv1 hv2]
  dsimp only
  rw [read_bytes_append _ _ _ _ hp]
  dsimp only
  rw [read_bytes_append _ _ _ _ hm]
  dsimp only
  rw [read_bytes_append _ _ _ _ hs]
  dsimp only
  rw [read_u32_append _ _ _ ht]
  dsimp only
  rw [read_bytes_append _ _ _ _ hb]
  dsimp only
  rw [read_bytes_append _ _ _ _ hn]
  dsimp only
  rw [CompactSizeRead_write _ _ hsol]
  dsimp only
  rw [read_bytes_self]

theorem c2_header_roundtrip_witness :
    BlockHeaderData.parse_from_slice hdr0.to_binary none = .ok ([], hdr0) :=
  c2_header_roundtrip hdr0 (by decide) (by decide) (by decide) (by decide)
    (by decide) (by decide) (by decide) (by decide) (by decide)

theorem sha256_length (m : List Nat) : (sha256 m).length = 32 := by
  simp [sha256, be32Bytes]

/-- C1: `get_block_hash` is the double SHA-256 (the second invocation consuming
the first digest) of the `to_binary` serialization, a 32-byte digest; and every
successfully parsed block carries exactly this value of its own header in
`cached_hash`. -/
theorem c1_block_hash :
    (∀ H : BlockHeaderData,
      H.get_block_hash = doubleSha256 H.to_binary ∧ H.get_block_hash.length = 32) ∧
    (∀ (txParse : TxParseFn) (data : List Nat) (txid : Option (List Nat))
      (rem : List Nat) (blk : FullBlock),
      FullBlock.parse_from_slice txParse data txid = .ok (rem, blk) →
      blk.hdr.cached_hash = doubleSha256 blk.hdr.raw_block_header.to_binary) := by
  constructor
  · intro H
    exact ⟨rfl, sha256_length _⟩
  · intro txParse data txid rem blk h
    unfold FullBlock.parse_from_slice at h
    cases txid with
    | none => exact RResult.noConfusion h
    | some txids =>
      cases hh : BlockHeaderData.parse_from_slice data none with
      | error e => rw [hh] at h; exact RResult.noConfusion h
      | ok v =>
        obtain ⟨r1, bhd⟩ := v
        rw [hh] at h
        dsimp only at h
        cases hc : CompactSizeRead r1 with
        | error e => rw [hc] at h; exact RResult.noConfusion h
        | ok w =>
          obtain ⟨tx_count, after_count⟩ := w
          rw [hc] at h
          dsimp only at h
          by_cases hlen : txids.length ≠ tx_count
          · rw [if_pos hlen] at h; exact RResult.noConfusion h
          · rw [if_neg hlen] at h
            cases hloop : FullBlock.parseTxLoop txParse after_count txids after_count with
            | ok p =>
              obtain ⟨remf, txs⟩ := p
              rw [hloop] at h
              dsimp only [RResult.bind] at h
              cases hht : FullBlock.get_block_height txs with
              | ok ht =>
                rw [hht] at h
                dsimp only [RResult.bind] at h
                injection h with h'
                injection h' with h1 h2
                subst h2
                rfl
              | err e => rw [hht] at h; exact RResult.noConfusion h
              | panic m => rw [hht] at h; exact RResult.noConfusion h
            | err e => rw [hloop] at h; exact RResult.noConfusion h
            | panic m => rw [hloop] at h; exact RResult.noConfusion h

/-- Concrete one-transaction block bytes for the C1 witness: the serialized
all-zero header, a transaction count of 1, and a single one-byte transaction
whose script is OP_1. -/
def blockData1 : List Nat := hdr0.to_binary ++ [1, 0x51]

/-- The block value produced by parsing `blockData1` with `txParse1`. -/
def block1 : FullBlock :=
  { hdr := { raw_block_header := hdr0, cached_hash := hdr0.get_block_hash },
    vtx := [⟨⟨[⟨[0x51]⟩]⟩⟩],
    height := 1 }

set_option maxRecDepth 100000 in
theorem c1_block_hash_witness :
    block1.hdr.cached_hash = doubleSha256 block1.hdr.raw_block_header.to_binary :=
  c1_block_hash.2 txParse1 blockData1 (some [0xAA]) [] block1 (by decide)

set_option maxRecDepth 100000 in
/-- C10: `get_block_height` indexes `transactions[0]` and its first transparent
input without a guard, so an empty transaction list, or a first transaction
with no transparent inputs, panics instead of returning a `ParseError`; and
`parse_from_slice` on a block whose compact-size transaction count is 0,
called with an empty txid list, reaches this unguarded access. -/
theorem c10_unguarded_indexing :
    FullBlock.get_block_height [] = .panic "index out of bounds" ∧
    (∀ tx : FullTransaction, tx.raw_transaction.transparent_inputs = [] →
      FullBlock.get_block_height [tx] = .panic "index out of bounds") ∧
    FullBlock.parse_from_slice txParse1 (hdr0.to_binary ++ [0]) (some []) =
      .panic "index out of bounds" := by
  refine ⟨rfl, ?_, by decide⟩
  intro tx h
  unfold FullBlock.get_block_height
  simp [rustIndex, RResult.bind, h]

theorem c10_unguarded_indexing_witness :
    FullBlock.get_block_height [⟨⟨[]⟩⟩] = .panic "index out of bounds" :=
  c10_unguarded_indexing.2.1 ⟨⟨[]⟩⟩ rfl

set_option maxRecDepth 100000 in
/-- C4: evaluation of `FullBlock::parse_from_slice` on a concrete block with
two one-byte transactions `[0x51, 0x52]` after the count byte.  Because the
Rust loop slices from `cursor.position()`, which is never advanced inside the
loop, both parsed transactions come from the same offset and record `0x51`;
the remainder is `[0x52]`.  Had the second transaction been parsed from the
remainder left by the first — as the claim states — it would have recorded
`0x52` (second conjunct) and the remainder would have been empty.  The third
conjunct notes that the two results differ. -/
theorem c4_stale_cursor_evaluation :
    parsedVtx (FullBlock.parse_from_slice txParse1 (hdr0.to_binary ++ [2, 0x51, 0x52])
        (some [0xAA, 0xBB])) =
      some ([0x52], [⟨⟨[⟨[0x51]⟩]⟩⟩, ⟨⟨[⟨[0x51]⟩]⟩⟩]) ∧
    txParse1 [0x52] (some [0xBB]) = .ok ([], ⟨⟨[⟨[0x52]⟩]⟩⟩) ∧
    (⟨⟨[⟨[0x51]⟩]⟩⟩ : FullTransaction) ≠ ⟨⟨[⟨[0x52]⟩]⟩⟩ := by
  refine ⟨by decide, by decide, by decide⟩

set_option maxRecDepth 100000 in
/-- Counterexample to C6 as stated: on a concrete block whose compact-size
transaction count (2) disagrees with the txid-list length (1), the parser does
fail with `InvalidData`, but the message is the source's format string, not
the literal `"txid count mismatch"`; likewise the exhausted-input error text is
not the literal `"insufficient bytes"`. -/
theorem c6_invalid_data_counterexample :
    FullBlock.parse_from_slice txParse1 (hdr0.to_binary ++ [2]) (some [7]) =
      .err (.InvalidData "number of txids (1) does not match tx_count (2)") ∧
    "number of txids (1) does not match tx_count (2)" ≠ "txid count mismatch" ∧
    FullBlock.parseTxLoop txParse1 [] [7] [] =
      .err (.InvalidData "parsing block transactions: not enough data for transaction.") ∧
    "parsing block transactions: not enough data for transaction." ≠ "insufficient bytes" := by
  refine ⟨by decide, by decide, rfl, by decide⟩

/-- C6 (amended): the parser does fail, producing no `FullBlock`, exactly when
the compact-size transaction count differs from the txid-list length or when
the remaining input is exhausted with transactions still to parse — but the
`InvalidData` payloads are the source's actual strings, `"number of txids (N)
does not match tx_count (C)"` and `"parsing block transactions: not enough
data for transaction."`, not the tags the claim quotes. -/
theorem c6_invalid_data_errors :
    (∀ (txParse : TxParseFn) (data txids r1 after_count : List Nat)
       (bhd : BlockHeaderData) (tx_count : Nat),
      BlockHeaderData.parse_from_slice data none = .ok (r1, bhd) →
      CompactSizeRead r1 = .ok (tx_count, after_count) →
      txids.length ≠ tx_count →
      FullBlock.parse_from_slice txParse data (some txids) =
        .err (.InvalidData ("number of txids (" ++ toString txids.length ++
          ") does not match tx_count (" ++ toString tx_count ++ ")"))) ∧
    (∀ (txParse : TxParseFn) (after_count : List Nat) (t : Nat) (ts : List Nat),
      FullBlock.parseTxLoop txParse after_count (t :: ts) [] =
        .err (.InvalidData "parsing block transactions: not enough data for transaction.")) ∧
    (∀ (txParse : TxParseFn) (data txids r1 : List Nat) (bhd : BlockHeaderData),
      BlockHeaderData.parse_from_slice data none = .ok (r1, bhd) →
      CompactSizeRead r1 = .ok (txids.length, []) →
      txids ≠ [] →
      FullBlock.parse_from_slice txParse data (some txids) =
        .err (.InvalidData "parsing block transactions: not enough data for transaction.")) := by
  refine ⟨?_, ?_, ?_⟩
  · intro txParse data txids r1 after_count bhd tx_count hh hc hne
    unfold FullBlock.parse_from_slice
    rw [hh]
    dsimp only
    rw [hc]
    dsimp only
    rw [if_pos hne]
  · intro txParse after_count t ts
    rfl
  · intro txParse data txids r1 bhd hh hc hne
    unfold FullBlock.parse_from_slice
    rw [hh]
    dsimp only
    rw [hc]
    dsimp only
    rw [if_neg (by omega : ¬ txids.length ≠ txids.length)]
    cases txids with
    | nil => exact absurd rfl hne
    | cons t ts => rfl

set_option maxRecDepth 100000 in
theorem c6_invalid_data_errors_witness :
    FullBlock.parse_from_slice txParse1 (hdr0.to_binary ++ [2]) (some [7]) =
      .err (.InvalidData "number of txids (1) does not match tx_count (2)") :=
  c6_invalid_data_errors.1 txParse1 (hdr0.to_binary ++ [2]) [7] [2] [] hdr0 2
    (by decide) (by decide) (by decide)

theorem pow_mul_lor_add : ∀ (k m b : Nat), b < 2 ^ k → ((2 ^ k * m) ||| b) = 2 ^ k * m + b
  | 0, m, b, hb => by
    have hb0 : b = 0 := by omega
    subst hb0
    simp
  | k + 1, m, b, hb => by
    have h1 : (2 ^ (k + 1) * m : Nat) = Nat.bit false (2 ^ k * m) := by
      rw [Nat.bit_val]
      simp only [Bool.toNat_false, Nat.add_zero]
      ring
    have h2 : Nat.bit (decide (b % 2 = 1)) (b / 2) = b := by
      rw [Nat.bit_val]
      rcases Nat.mod_two_eq_zero_or_one b with h | h <;> simp [h] <;> omega
    have hlt : b / 2 < 2 ^ k := by
      have : (2 : Nat) ^ (k + 1) = 2 * 2 ^ k := by ring
      omega
    calc (2 ^ (k + 1) * m : Nat) ||| b
        = Nat.bit false (2 ^ k * m) ||| Nat.bit (decide (b % 2 = 1)) (b / 2) := by rw [h1, h2]
      _ = Nat.bit (false || decide (b % 2 = 1)) ((2 ^ k * m) ||| (b / 2)) := Nat.lor_bit ..
      _ = Nat.bit (decide (b % 2 = 1)) (2 ^ k * m + b / 2) := by
          rw [Bool.false_or, pow_mul_lor_add k m (b / 2) hlt]
      _ = 2 ^ (k + 1) * m + b := by
          rw [Nat.bit_val]
          rcases Nat.mod_two_eq_zero_or_one b with h | h <;> simp [h] <;> ring_nf <;> omega

theorem scriptFold_eq : ∀ (bs : List Nat), (∀ b ∈ bs, b < 256) →
    bs.reverse.foldl (fun acc byte => ((acc <<< 8) % 18446744073709551616) ||| byte) 0 =
      leNat bs % 18446744073709551616 := by
  intro bs
  rw [List.foldl_reverse]
  induction bs with
  | nil => intro _; rfl
  | cons b bs ih =>
    intro hb
    have hbb : b < 256 := hb b (by simp)
    have ihr := ih (fun x hx => hb x (by simp [hx]))
    simp only [List.foldr_cons, ihr]
    rw [Nat.shiftLeft_eq]
    have hless : leNat bs % 18446744073709551616 * 2 ^ 8 % 18446744073709551616 =
        leNat bs * 256 % 18446744073709551616 := by
      rw [show (2 : Nat) ^ 8 = 256 from rfl, Nat.mod_mul_mod]
    rw [hless]
    have hy0 : leNat bs * 256 % 18446744073709551616 % 256 = 0 := by
      rw [Nat.mod_mod_of_dvd _ (by norm_num : (256 : Nat) ∣ 18446744073709551616)]
      simp [Nat.mul_mod_left]
    have hylt : leNat bs * 256 % 18446744073709551616 < 18446744073709551616 :=
      Nat.mod_lt _ (by norm_num)
    have hform : leNat bs * 256 % 18446744073709551616 =
        2 ^ 8 * (leNat bs * 256 % 18446744073709551616 / 256) := by
      omega
    rw [hform, pow_mul_lor_add 8 _ b (by omega)]
    have hle : leNat (b :: bs) = leNat bs * 256 + b := by simp [leNat]
    rw [hle]
    omega

theorem read_bytes_one (x : Nat) (r : List Nat) (msg : String) :
    read_bytes (x :: r) 1 msg = .ok ([x], r) := by
  simp [read_bytes]

theorem read_script_op0 (r : List Nat) : read_zcash_script_i64 (0x00 :: r) = .ok (0, r) := by
  unfold read_zcash_script_i64
  rw [read_bytes_one]
  simp [OP_0, OP_1_NEGATE]

theorem read_script_opneg (r : List Nat) :
    read_zcash_script_i64 (0x4f :: r) = .ok (-1, r) := by
  unfold read_zcash_script_i64
  rw [read_bytes_one]
  simp [OP_1_NEGATE]

theorem read_script_small (b : Nat) (r : List Nat) (h1 : 0x51 ≤ b) (h2 : b ≤ 0x60) :
    read_zcash_script_i64 (b :: r) = .ok ((b : Int) - 80, r) := by
  unfold read_zcash_script_i64
  rw [read_bytes_one]
  dsimp only [List.headI]
  rw [if_neg (by simp [OP_1_NEGATE]; omega), if_neg (by simp [OP_0]; omega),
    if_pos (by simp [OP_1, OP_16]; omega)]
  norm_num [OP_1]

theorem read_script_lengthPrefixed (n : Nat) (bs r : List Nat)
    (hn1 : n ≠ 0x4f) (hn0 : n ≠ 0x00) (hn2 : ¬ (0x51 ≤ n ∧ n ≤ 0x60))
    (hlen : bs.length = n) (hbytes : ∀ b ∈ bs, b < 256)
    (hval : leNat bs < 18446744073709551616) :
    read_zcash_script_i64 (n :: (bs ++ r)) =
      .ok ((if leNat bs < 9223372036854775808 then (leNat bs : Int)
            else (leNat bs : Int) - 18446744073709551616), r) := by
  unfold read_zcash_script_i64
  rw [read_bytes_one]
  dsimp only [List.headI]
  rw [if_neg (by simp [OP_1_NEGATE]; omega), if_neg (by simp [OP_0]; omega),
    if_neg (by simp [OP_1, OP_16]; omega)]
  rw [read_bytes_append bs r n _ hlen]
  dsimp only
  rw [scriptFold_eq bs hbytes, Nat.mod_eq_of_lt hval]

theorem clampMatch (v : Int) :
    (if v < 0 then (RResult.ok (-1) : RResult Int)
     else if v > 4294967295 then .ok (-1)
     else if v % 4294967296 = (GENESIS_TARGET_DIFFICULTY : Int) then .ok 0
     else .ok (i64AsI32 v)) =
    .ok (if v < 0 ∨ 4294967295 < v then -1
         else if v = 520617983 then 0
         else (v + 2147483648) % 4294967296 - 2147483648) := by
  have hgen : (GENESIS_TARGET_DIFFICULTY : Int) = 520617983 := by
    norm_num [GENESIS_TARGET_DIFFICULTY]
  rw [hgen]
  by_cases h1 : v < 0
  · rw [if_pos h1, if_pos (Or.inl h1)]
  · rw [if_neg h1]
    by_cases h2 : v > 4294967295
    · rw [if_pos h2, if_pos (Or.inr h2)]
    · rw [if_neg h2]
      have hmod : v % 4294967296 = v := by omega
      rw [hmod, if_neg (by omega : ¬ (v < 0 ∨ 4294967295 < v))]
      by_cases h3 : v = 520617983
      · rw [if_pos h3, if_pos h3]
      · rw [if_neg h3, if_neg h3, i64AsI32]

/-- C3 (amended): for a non-empty transaction list whose first transaction has
a transparent input whose `script_sig` encodes `h` as a Zcash script integer
with `h < 2^64` (beyond 8 payload bytes the code's `u64` fold wraps),
`get_block_height` returns: `-1` when `h` is negative or exceeds `u32::MAX`;
`0` for the sentinel `520617983`; and otherwise the *`i32`-wrapped* value
`(h + 2^31) mod 2^32 - 2^31` — which equals `h` only up to `i32::MAX`, not up
to `u32::MAX` as the claim states. -/
theorem c3_block_height_amended (txs : List FullTransaction) (tx0 : FullTransaction)
    (rest : List FullTransaction) (inp : TxIn) (irest : List TxIn)
    (s : List Nat) (h : Int)
    (htxs : txs = tx0 :: rest)
    (hinp : tx0.raw_transaction.transparent_inputs = inp :: irest)
    (hscript : inp.script_sig = s)
    (henc : SpecScriptInt s h) (hsz : h < 18446744073709551616) :
    FullBlock.get_block_height txs =
      .ok (if h < 0 ∨ 4294967295 < h then -1
           else if h = 520617983 then 0
           else (h + 2147483648) % 4294967296 - 2147483648) := by
  subst htxs
  unfold FullBlock.get_block_height
  have hidx0 : rustIndex (tx0 :: rest) 0 = .ok tx0 := rfl
  rw [hidx0]
  dsimp only [RResult.bind]
  have hidx1 : rustIndex tx0.raw_transaction.transparent_inputs 0 = .ok inp := by
    rw [hinp]; rfl
  rw [hidx1]
  dsimp only [RResult.bind]
  rw [hscript]
  cases henc with
  | op0 r =>
    rw [read_script_op0]
    exact clampMatch 0
  | opNegate r =>
    rw [read_script_opneg]
    exact clampMatch (-1)
  | opSmall b r h1 h2 =>
    rw [read_script_small b r h1 h2]
    exact clampMatch ((b : Int) - 80)
  | lengthPrefixed n bs r hn hn0 hn1 hn2 hlen hbytes =>
    have hszn : leNat bs < 18446744073709551616 := by exact_mod_cast hsz
    rw [read_script_lengthPrefixed n bs r hn1 hn0 hn2 hlen hbytes hszn]
    dsimp only
    by_cases hbig : leNat bs < 9223372036854775808
    · simp only [if_pos hbig]
      exact clampMatch (leNat bs : Int)
    · simp only [if_neg hbig]
      have hge : (9223372036854775808 : Int) ≤ (leNat bs : Nat) := by exact_mod_cast Nat.le_of_not_lt hbig
      rw [if_pos (by omega : ((leNat bs : Nat) : Int) - 18446744073709551616 < 0)]
      rw [if_pos (Or.inr (by omega : (4294967295 : Int) < (leNat bs : Nat)))]

/-- Counterexample to C3 as stated: the script `[0x04, 0x00, 0x00, 0x00, 0x80]`
encodes `h = 2147483648 = 2^31`, which lies in `[1, u32::MAX]` and is not the
sentinel, yet `get_block_height` returns `-2147483648` (the `as i32` cast of
`2^31`), not `h`. -/
theorem c3_i32_wrap_counterexample :
    SpecScriptInt [4, 0, 0, 0, 128] 2147483648 ∧
    (1 : Int) ≤ 2147483648 ∧ (2147483648 : Int) ≤ 4294967295 ∧
    (2147483648 : Int) ≠ 520617983 ∧
    FullBlock.get_block_height [⟨⟨[⟨[4, 0, 0, 0, 128]⟩]⟩⟩] = .ok (-2147483648) ∧
    (-2147483648 : Int) ≠ 2147483648 := by
  refine ⟨?_, by norm_num, by norm_num, by norm_num, by decide, by decide⟩
  exact SpecScriptInt.lengthPrefixed 4 [0, 0, 0, 128] [] (by norm_num) (by norm_num)
    (by norm_num) (by norm_num) rfl (by decide)

theorem c3_block_height_amended_witness :
    FullBlock.get_block_height [⟨⟨[⟨[0x51]⟩]⟩⟩] =
      .ok (if (1 : Int) < 0 ∨ 4294967295 < (1 : Int) then -1
           else if (1 : Int) = 520617983 then 0
           else ((1 : Int) + 2147483648) % 4294967296 - 2147483648) :=
  c3_block_height_amended [⟨⟨[⟨[0x51]⟩]⟩⟩] ⟨⟨[⟨[0x51]⟩]⟩⟩ [] ⟨[0x51]⟩ [] [0x51] 1
    rfl rfl rfl (SpecScriptInt.opSmall 0x51 [] (by norm_num) (by norm_num)) (by norm_num)

theorem sendLoop_bound {R : Type} (deser : String → Except String (RpcResponse R))
    (outcomes : Nat → HttpOutcome) (body : String) :
    ∀ (fuel a : Nat), 5 - a = fuel → a < 5 →
      (sendRequestLoop deser outcomes body a).attempts ≤ 5 ∧
      a + 1 ≤ (sendRequestLoop deser outcomes body a).attempts ∧
      (sendRequestLoop deser outcomes body a).sent =
        List.replicate ((sendRequestLoop deser outcomes body a).attempts - a) body := by
  intro fuel
  induction fuel with
  | zero => intro a hfa ha; omega
  | succ fuel ih =>
    intro a hfa ha
    have hone : a + 1 - a = 1 := by omega
    rw [sendRequestLoop]
    cases houtcome : outcomes a with
    | transportErr m =>
      dsimp only
      refine ⟨by omega, by omega, ?_⟩
      rw [hone]
      rfl
    | body s =>
      dsimp only
      by_cases hsent : strContains s workQueueSentinel
      · rw [if_pos hsent]
        by_cases hmax : a + 1 ≥ 5
        · rw [if_pos hmax]
          dsimp only
          refine ⟨by omega, by omega, ?_⟩
          rw [hone]
          rfl
        · rw [if_neg hmax]
          obtain ⟨ih1, ih2, ih3⟩ := ih (a + 1) (by omega) (by omega)
          dsimp only
          refine ⟨ih1, by omega, ?_⟩
          rw [ih3]
          have hsucc : (sendRequestLoop deser outcomes body (a + 1)).attempts - a =
              ((sendRequestLoop deser outcomes body (a + 1)).attempts - (a + 1)) + 1 := by
            omega
          rw [hsucc, List.replicate_succ]
      · rw [if_neg hsent]
        cases deser s with
        | error m =>
          dsimp only
          refine ⟨by omega, by omega, ?_⟩
          rw [hone]
          rfl
        | ok resp =>
          dsimp only
          cases herr : resp.error with
          | some e =>
            dsimp only
            refine ⟨by omega, by omega, ?_⟩
            rw [hone]
            rfl
          | none =>
            dsimp only
            refine ⟨by omega, by omega, ?_⟩
            rw [hone]
            rfl

theorem sendLoop_all_sentinel {R : Type} (deser : String → Except String (RpcResponse R))
    (outcomes : Nat → HttpOutcome) (body : String)
    (hsent : ∀ k, k < 5 → ∃ s, outcomes k = .body s ∧ strContains s workQueueSentinel = true) :
    ∀ (fuel a : Nat), 5 - a = fuel → a < 5 →
      (sendRequestLoop deser outcomes body a).result =
        .error (.CustomError "Work queue depth exceeded after multiple attempts") ∧
      (sendRequestLoop deser outcomes body a).attempts = 5 := by
  intro fuel
  induction fuel with
  | zero => intro a hfa ha; omega
  | succ fuel ih =>
    intro a hfa ha
    obtain ⟨s, hs, hcontains⟩ := hsent a ha
    rw [sendRequestLoop, hs]
    dsimp only
    rw [if_pos (by rw [hcontains] : strContains s workQueueSentinel = true)]
    by_cases hmax : a + 1 ≥ 5
    · rw [if_pos hmax]
      dsimp only
      exact ⟨rfl, by omega⟩
    · rw [if_neg hmax]
      dsimp only
      exact ih (a + 1) (by omega) (by omega)

/-- C5: `send_request` invokes the HTTP layer at most 5 times for one logical
request, re-issuing the identical serialized envelope (same id, same body) on
every attempt; when all five bodies contain the literal backpressure sentinel
it returns `CustomError("Work queue depth exceeded after multiple attempts")`
after exactly 5 attempts; a transport error is surfaced immediately after a
single attempt, and a non-sentinel body — whether it deserializes to a value,
fails to deserialize, or carries a JSON-RPC error envelope — ends the loop
after a single attempt. -/
theorem c5_send_request_retry {T R : Type}
    (serializeReq : RpcRequest T → String)
    (deser : String → Except String (RpcResponse R))
    (outcomes : Nat → HttpOutcome) (method : String) (params : T) (id : Int) :
    (JsonRpcConnector.send_request serializeReq deser outcomes method params id).attempts ≤ 5 ∧
    (JsonRpcConnector.send_request serializeReq deser outcomes method params id).sent =
      List.replicate
        (JsonRpcConnector.send_request serializeReq deser outcomes method params id).attempts
        (serializeReq { jsonrpc := "2.0", method := method, params := params, id := id }) ∧
    ((∀ k, k < 5 → ∃ s, outcomes k = .body s ∧ strContains s workQueueSentinel = true) →
      (JsonRpcConnector.send_request serializeReq deser outcomes method params id).result =
        .error (.CustomError "Work queue depth exceeded after multiple attempts") ∧
      (JsonRpcConnector.send_request serializeReq deser outcomes method params id).attempts = 5) ∧
    (∀ m, outcomes 0 = .transportErr m →
      JsonRpcConnector.send_request serializeReq deser outcomes method params id =
        ⟨1, [serializeReq { jsonrpc := "2.0", method := method, params := params, id := id }],
          .error (.HyperError m)⟩) ∧
    (∀ s, outcomes 0 = .body s → strContains s workQueueSentinel = false →
      (JsonRpcConnector.send_request serializeReq deser outcomes method params id).attempts = 1) := by
  refine ⟨?_, ?_, ?_, ?_, ?_⟩
  · exact (sendLoop_bound deser outcomes _ 5 0 rfl (by omega)).1
  · have h := sendLoop_bound deser outcomes
      (serializeReq { jsonrpc := "2.0", method := method, params := params, id := id }) 5 0 rfl
      (by omega)
    simpa [JsonRpcConnector.send_request] using h.2.2
  · intro hsent
    exact sendLoop_all_sentinel deser outcomes _ hsent 5 0 rfl (by omega)
  · intro m hm
    unfold JsonRpcConnector.send_request
    rw [sendRequestLoop, hm]
  · intro s hs hns
    unfold JsonRpcConnector.send_request
    rw [sendRequestLoop, hs]
    dsimp only
    rw [if_neg (by rw [hns]; exact Bool.false_ne_true : ¬ strContains s workQueueSentinel = true)]
    cases deser s with
    | error m => rfl
    | ok resp =>
      dsimp only
      cases resp.error with
      | some e => rfl
      | none => rfl

set_option maxRecDepth 100000 in
theorem c5_send_request_retry_witness :
    (JsonRpcConnector.send_request (fun _ => "B")
        (fun _ => (.error "x" : Except String (RpcResponse Unit)))
        (fun _ => .body "error: Work queue depth exceeded. try again") "getinfo" () 0).result =
      .error (.CustomError "Work queue depth exceeded after multiple attempts") ∧
    (JsonRpcConnector.send_request (fun _ => "B")
        (fun _ => (.error "x" : Except String (RpcResponse Unit)))
        (fun _ => .body "error: Work queue depth exceeded. try again") "getinfo" () 0).attempts = 5 :=
  (c5_send_request_retry (fun _ => "B") (fun _ => (.error "x" : Except String (RpcResponse Unit)))
      (fun _ => .body "error: Work queue depth exceeded. try again") "getinfo" () 0).2.2.1
    (fun k _ => ⟨"error: Work queue depth exceeded. try again", rfl, by decide⟩)

/-- C7: evaluation of the `TcpIngestor::serve` accept branch at a full queue.
The modelled `try_send` (from the spec, §4.3) rejects the request and leaves
the queue unchanged; the ingestor branch (from ingestor.rs) then only prints
"Queue Full." — the wallet-visible "resource exhausted" response the claim
describes exists in the source only as a TODO comment — the request is not
enqueued, and the accept loop continues (the returned flag is `false`).  The
final conjunct records that the emitted effect list contains neither a
`sendResourceExhausted` nor a `closeStreamWithResponse` effect. -/
theorem c7_queue_full_logs_only :
    Queue.try_send (⟨1, [ZingoProxyRequest.grpc 0], false⟩ : Queue ZingoProxyRequest)
        (.grpc 7) =
      (⟨1, [.grpc 0], false⟩, .error (.queueFull (.grpc 7))) ∧
    TcpIngestor.handleIncoming ⟨1, [.grpc 0], false⟩ (.ok 7) =
      (⟨1, [.grpc 0], false⟩, [.logError "Queue Full."], false) ∧
    (∀ s : Nat,
      IngestorEffect.sendResourceExhausted s ∉ [IngestorEffect.logError "Queue Full."] ∧
      IngestorEffect.closeStreamWithResponse s ∉ [IngestorEffect.logError "Queue Full."]) := by
  refine ⟨by decide, by decide, fun s => ⟨by simp, by simp⟩⟩

theorem probeLoop_length (port : Nat) (o4 o6 : Nat → Bool) :
    ∀ (fuel r : Nat), 3 - r = fuel → (probeLoop port o4 o6 r).1.length ≤ 3 * fuel := by
  intro fuel
  induction fuel with
  | zero =>
    intro r hf
    rw [probeLoop, dif_pos (by omega : r ≥ 3)]
    simp
  | succ fuel ih =>
    intro r hf
    rw [probeLoop, dif_neg (by omega : ¬ r ≥ 3)]
    cases h4 : o4 r with
    | true => simp; omega
    | false =>
      cases h6 : o6 r with
      | true => simp; omega
      | false =>
        simp only [if_neg (by simp : ¬ (false = true)), Bool.false_eq_true, if_false]
        have := ih (r + 1) (by omega)
        simp only [List.length_cons]
        omega

/-- C8: the node probe runs at most 3 rounds (trace length at most 9 events);
in each round it first attempts the getinfo request against
`http://127.0.0.1:port` with a 3-second timeout and on success returns that
IPv4 URI without probing IPv6; on IPv4 failure it attempts `http://[::1]:port`
with the same budget and returns it on success; when both fail it sleeps 3 s
before the next round; and when every round fails it calls
`std::process::exit(1)` instead of returning a URI. -/
theorem c8_node_probe (port : Nat) (o4 o6 : Nat → Bool) :
    (o4 0 = true →
      test_node_and_return_uri port o4 o6 =
        ([.attempt (ipv4Uri port) getinfoBody 3], .ret (ipv4Uri port))) ∧
    (o4 0 = false → o6 0 = true →
      test_node_and_return_uri port o4 o6 =
        ([.attempt (ipv4Uri port) getinfoBody 3, .attempt (ipv6Uri port) getinfoBody 3],
         .ret (ipv6Uri port))) ∧
    (∀ r, r < 3 → o4 r = false → o6 r = false →
      probeLoop port o4 o6 r =
        (.attempt (ipv4Uri port) getinfoBody 3 :: .attempt (ipv6Uri port) getinfoBody 3 ::
          .sleepSecs 3 :: (probeLoop port o4 o6 (r + 1)).1,
         (probeLoop port o4 o6 (r + 1)).2)) ∧
    ((∀ r, r < 3 → o4 r = false ∧ o6 r = false) →
      test_node_and_return_uri port o4 o6 =
        ([.attempt (ipv4Uri port) getinfoBody 3, .attempt (ipv6Uri port) getinfoBody 3,
          .sleepSecs 3,
          .attempt (ipv4Uri port) getinfoBody 3, .attempt (ipv6Uri port) getinfoBody 3,
          .sleepSecs 3,
          .attempt (ipv4Uri port) getinfoBody 3, .attempt (ipv6Uri port) getinfoBody 3,
          .sleepSecs 3],
         .exit 1)) ∧
    (test_node_and_return_uri port o4 o6).1.length ≤ 9 := by
  have hstep : ∀ r, r < 3 → o4 r = false → o6 r = false →
      probeLoop port o4 o6 r =
        (.attempt (ipv4Uri port) getinfoBody 3 :: .attempt (ipv6Uri port) getinfoBody 3 ::
          .sleepSecs 3 :: (probeLoop port o4 o6 (r + 1)).1,
         (probeLoop port o4 o6 (r + 1)).2) := by
    intro r hr h4 h6
    rw [probeLoop, dif_neg (by omega : ¬ r ≥ 3), h4, h6]
    simp
  refine ⟨?_, ?_, hstep, ?_, ?_⟩
  · intro h4
    rw [test_node_and_return_uri, probeLoop, dif_neg (by omega : ¬ (0 : Nat) ≥ 3), h4]
    simp
  · intro h4 h6
    rw [test_node_and_return_uri, probeLoop, dif_neg (by omega : ¬ (0 : Nat) ≥ 3), h4, h6]
    simp
  · intro hall
    have hend : probeLoop port o4 o6 3 = ([], .exit 1) := by
      rw [probeLoop, dif_pos (by omega : (3 : Nat) ≥ 3)]
    rw [test_node_and_return_uri,
      hstep 0 (by omega) (hall 0 (by omega)).1 (hall 0 (by omega)).2,
      hstep 1 (by omega) (hall 1 (by omega)).1 (hall 1 (by omega)).2,
      hstep 2 (by omega) (hall 2 (by omega)).1 (hall 2 (by omega)).2, hend]
  · exact probeLoop_length port o4 o6 3 0 rfl

theorem c8_node_probe_witness :
    test_node_and_return_uri 18232 (fun _ => true) (fun _ => false) =
      ([.attempt "http://127.0.0.1:18232" getinfoBody 3], .ret "http://127.0.0.1:18232") := by
  have h := (c8_node_probe 18232 (fun _ => true) (fun _ => false)).1 rfl
  rw [h]
  rfl

/-- Counterexample to C9 as stated: the connector's id counter is an
`AtomicI32`, so `fetch_add(1)` wraps after `i32::MAX`; call number `2^31`
observes id `-2^31`, which is smaller than the id `2^31 - 1` handed out
before it, refuting strict monotonicity over the whole client lifetime. -/
theorem c9_id_wrap_counterexample :
    idOfCall 0 = 0 ∧ idOfCall 2147483647 = 2147483647 ∧
    idOfCall 2147483648 = -2147483648 ∧
    ¬ idOfCall 2147483647 < idOfCall 2147483648 := by
  have h0 := idOfCall_closed 0
  have h1 := idOfCall_closed 2147483647
  have h2 := idOfCall_closed 2147483648
  refine ⟨by omega, by omega, by omega, by omega⟩

/-- C9 (amended): the id counter starts at 0 and the id placed in the envelope
is strictly monotonically increasing across calls as long as the counter has
not wrapped, i.e. for calls with index below `2^31` (the spec itself notes the
counter "wraps after 2^31-1"). -/
theorem c9_id_monotone_amended (m n : Nat) (hmn : m < n) (hn : n < 2147483648) :
    idOfCall m < idOfCall n := by
  have hm' := idOfCall_closed m
  have hn' := idOfCall_closed n
  omega

theorem c9_id_monotone_amended_witness : idOfCall 0 < idOfCall 1 :=
  c9_id_monotone_amended 0 1 (by omega) (by omega)
